import Mathlib

/-!
Verification of the activity scheduling and simulation engine of the
LISA-SWP25/linux-agent repository (source: src/modified_unified_agent.py;
src/unified_agent.py contains the same engine with custom command overrides
fixed to the empty set and a slightly smaller built-in catalog, so every
statement below quantified over `custom` covers it as the `[]` instance).

Time-of-day values (`datetime.time` in the source) are modelled as seconds
since midnight (`Nat`); the monotonic wall clock (`time.time()`) is modelled
as `Int` so that the elapsed-time subtraction in `should_switch_app` behaves
like the source's float subtraction (which can be negative) rather than
truncating at zero.  Randomized choices (`random.choice`, `random.randint`)
are supplied by an oracle so the step function is deterministic; command
execution outcomes (`subprocess.run` result codes) are supplied by an
outcome function `String → Bool`.  Python truthiness of `self.current_app`
(empty string falsy) and `self.app_start_time` (zero falsy) is modelled
explicitly wherever the source tests them with `if not x` / `if x`.
-/

namespace LinuxAgent

/-- `work_schedule["breaks"]` entry: `{start: "HH:MM", duration_minutes: n}`.
`start` is parsed with `strptime "%H:%M"`, i.e. a time of day; here seconds
since midnight. -/
structure BreakInfo where
  startSec : Nat
  durationMinutes : Nat
deriving DecidableEq, Repr

/-- `work_schedule`: parsed `start_time`, `end_time` (seconds since midnight)
and the list of breaks. -/
structure WorkSchedule where
  startTime : Nat
  endTime : Nat
  breaks : List BreakInfo
deriving DecidableEq, Repr

/-- End of a break, from `ActivityUtils.is_break_time`:
`datetime.combine(date, break_start) + timedelta(minutes=duration)` and then
`.time()`, i.e. the end-of-day wrap-around is taken modulo 24 hours. -/
def breakEnd (b : BreakInfo) : Nat :=
  (b.startSec + b.durationMinutes * 60) % 86400

/-- The containment test of one break window in `is_break_time`:
`break_start <= current_time_only <= break_end`. -/
def inBreak (t : Nat) (b : BreakInfo) : Bool :=
  decide (b.startSec ≤ t ∧ t ≤ breakEnd b)

/-- `ActivityUtils.is_work_time`: `start_time <= current_time_only <= end_time`. -/
def is_work_time (t : Nat) (ws : WorkSchedule) : Bool :=
  decide (ws.startTime ≤ t ∧ t ≤ ws.endTime)

/-- `ActivityUtils.is_break_time`: some break window contains the current
time of day. -/
def is_break_time (t : Nat) (ws : WorkSchedule) : Bool :=
  ws.breaks.any (inBreak t)

/-- The three schedule classes distinguished by the scheduler loop
(`ActivityAgent.run` first tests `is_work_time`, then `is_break_time`). -/
inductive ScheduleClass where
  | OFF_HOURS
  | ON_BREAK
  | WORKING
deriving DecidableEq, Repr

/-- The schedule classification as the loop head of `ActivityAgent.run`
performs it: `if not is_work_time: ... continue`, then
`if is_break_time: ... continue`, else fall through to activity. -/
def classify (t : Nat) (ws : WorkSchedule) : ScheduleClass :=
  if ¬ is_work_time t ws then .OFF_HOURS
  else if is_break_time t ws then .ON_BREAK
  else .WORKING

/-- One `activities` entry: `{description: ..., commands: [...]}`. -/
structure ActivityScript where
  description : String
  commands : List String
deriving DecidableEq, Repr

/-- The value of one application entry in the catalog: the "open",
"close" and "activities" keys, each possibly absent (the source stores
plain dicts; an absent key makes the corresponding operation a no-op). -/
structure AppCommands where
  openCmd : Option String
  closeCmd : Option String
  activities : Option (List ActivityScript)
deriving DecidableEq, Repr

/-- The empty dict `{}` returned by `app_configs.get(app_name, {})` on a
catalog miss. -/
def emptyCommands : AppCommands := ⟨none, none, none⟩

/-- A dict from application name to its commands, as an association list. -/
def Catalog := List (String × AppCommands)

/-- Dict lookup: `d[k]` / `k in d`. -/
def catFind (cat : Catalog) (k : String) : Option AppCommands :=
  (List.find? (fun p => p.1 = k) cat).map Prod.snd

/-- The built-in `app_configs` dict of
`ActivityUtils.get_application_commands` in modified_unified_agent.py. -/
def app_configs : Catalog :=
  [ ("Visual Studio Code",
     { openCmd := some "code"
       closeCmd := some "pkill -f code"
       activities := some
         [ { description := "Opening a file"
             commands :=
               [ "xdotool key ctrl+o", "sleep 2",
                 "xdotool type \x27main.py\x27", "xdotool key Return" ] }
         , { description := "Typing code"
             commands :=
               [ "xdotool type \x27print(\"Hello World\")\x27",
                 "xdotool key Return", "xdotool key ctrl+s" ] }
         , { description := "Search in files"
             commands :=
               [ "xdotool key ctrl+shift+f", "sleep 1",
                 "xdotool type \x27function\x27", "xdotool key Return" ] } ] })
  , ("Slack",
     { openCmd := some "slack"
       closeCmd := some "pkill -f slack"
       activities := some
         [ { description := "Checking messages"
             commands :=
               [ "xdotool key ctrl+k", "sleep 1",
                 "xdotool type \x27general\x27", "xdotool key Return" ] }
         , { description := "Typing message"
             commands :=
               [ "xdotool type \x27Good morning team!\x27",
                 "xdotool key Return" ] } ] })
  , ("Google Chrome",
     { openCmd := some "google-chrome"
       closeCmd := some "pkill -f chrome"
       activities := some
         [ { description := "Browsing documentation"
             commands :=
               [ "xdotool key ctrl+l",
                 "xdotool type \x27https://docs.python.org\x27",
                 "xdotool key Return", "sleep 5",
                 "xdotool key ctrl+f", "xdotool type \x27function\x27" ] }
         , { description := "Opening new tab"
             commands :=
               [ "xdotool key ctrl+t",
                 "xdotool type \x27https://stackoverflow.com\x27",
                 "xdotool key Return" ] }
         , { description := "Scrolling page"
             commands :=
               [ "xdotool key Page_Down", "sleep 2",
                 "xdotool key Page_Down", "sleep 2",
                 "xdotool key Page_Up" ] } ] })
  , ("Firefox",
     { openCmd := some "firefox"
       closeCmd := some "pkill -f firefox"
       activities := some
         [ { description := "Browsing web"
             commands :=
               [ "xdotool key ctrl+l",
                 "xdotool type \x27https://github.com\x27",
                 "xdotool key Return" ] } ] })
  , ("Docker Desktop",
     { openCmd := some "docker"
       closeCmd := some "pkill -f docker"
       activities := some
         [ { description := "Checking containers"
             commands := [ "docker ps", "sleep 2", "docker images" ] }
         , { description := "Building image"
             commands := [ "docker build -t test-app .", "sleep 10" ] } ] }) ]

/-- `ActivityUtils.get_application_commands(app_name, custom_commands)`:
caller-supplied custom commands take precedence; otherwise the built-in
dict; otherwise the empty dict. -/
def get_application_commands (app : String) (custom : Catalog) : AppCommands :=
  match catFind custom app with
  | some c => c
  | none => (catFind app_configs app).getD emptyCommands

/-- Which call site of `run_command` produced an executor invocation: the
`open` command, the `close` command, or one step of an activity script.  The
three call sites (`open_application`, `close_application`,
`simulate_activity`) are distinct in the source, so the trace can tag them. -/
inductive ExecRole where
  | openCmd
  | closeCmd
  | activityStep
deriving DecidableEq, Repr

/-- Severity of a log record (`logging.info` / `logging.warning`). -/
inductive LogLevel where
  | info
  | warning
deriving DecidableEq, Repr

/-- The structured content of the log records the engine emits (the source
formats them as f-strings; the time-dependent duration figure in the messages
of run_command is omitted as it carries no program state). -/
inductive LogMsg where
  | cmdSuccess (cmd : String)
  | cmdFailed (cmd : String)
  | openingApp (app : String)
  | closingApp (app : String)
  | simulating (app : String) (descr : String)
  | workTimeEnded
  | outsideWorkHours
  | breakTimeClosing
  | breakTimeSleeping
  | pausingBetweenApps (secs : Nat)
deriving DecidableEq, Repr

/-- One observable event of the engine: an executor invocation
(`subprocess.run` inside `ActivityAgent.run_command`) or a log record. -/
inductive Event where
  | exec (role : ExecRole) (cmd : String) (ok : Bool)
  | log (lvl : LogLevel) (msg : LogMsg)
deriving DecidableEq, Repr

/-- `ActivityAgent.run_command`: runs the command through the executor and
logs `SUCCESS` (info) or `COMMAND FAILED` (warning).  The outcome is given by
the environment `outc`; the source never propagates a failure (the `except`
branch merely logs), so the function always returns. -/
def run_command (outc : String → Bool) (role : ExecRole) (cmd : String) :
    List Event :=
  if outc cmd then
    [Event.exec role cmd true, Event.log .info (.cmdSuccess cmd)]
  else
    [Event.exec role cmd false, Event.log .warning (.cmdFailed cmd)]

/-- The mutable session fields of `ActivityAgent`: `current_app`,
`app_start_time` and `session_duration`. -/
structure AgentState where
  current_app : Option String
  app_start_time : Option Int
  session_duration : Int
deriving DecidableEq, Repr

/-- `ActivityAgent.__init__`: `current_app = None`, `app_start_time = None`,
`session_duration = random.randint(300, 900)` (oracle-supplied). -/
def initState (d : Int) : AgentState :=
  { current_app := none, app_start_time := none, session_duration := d }

/-- Python truthiness of `self.current_app` (`None` and `""` are falsy). -/
def truthyApp : Option String → Bool
  | none => false
  | some a => a != ""

/-- Python truthiness of `self.app_start_time` (`None` and `0` are falsy). -/
def truthyTime : Option Int → Bool
  | none => false
  | some t => t != 0

/-- `ActivityAgent.open_application`: on a catalog hit with an "open" key,
log, run the open command, set `current_app` and `app_start_time`, return
`True`; otherwise return `False` with no effect. -/
def open_application (custom : Catalog) (outc : String → Bool)
    (s : AgentState) (app : String) (clk : Int) :
    AgentState × List Event × Bool :=
  let commands := get_application_commands app custom
  match commands.openCmd with
  | some c =>
      ({ s with current_app := some app, app_start_time := some clk },
       Event.log .info (.openingApp app) :: run_command outc .openCmd c,
       true)
  | none => (s, [], false)

/-- `ActivityAgent.close_application`: on a catalog hit with a "close" key,
log and run the close command; in every case clear `current_app` and
`app_start_time`. -/
def close_application (custom : Catalog) (outc : String → Bool)
    (s : AgentState) (app : String) : AgentState × List Event :=
  let commands := get_application_commands app custom
  let evs := match commands.closeCmd with
    | some c => Event.log .info (.closingApp app) :: run_command outc .closeCmd c
    | none => []
  ({ s with current_app := none, app_start_time := none }, evs)

/-- The activity script `random.choice` would pick in
`ActivityAgent.simulate_activity` (`none` when the "activities" key is
absent or — a `random.choice` on an empty list — the list is empty). -/
def chosenScript (custom : Catalog) (app : String) (pick : Nat) :
    Option ActivityScript :=
  match (get_application_commands app custom).activities with
  | none => none
  | some acts => acts.get? (pick % acts.length)

/-- `ActivityAgent.simulate_activity`: if the catalog entry has an
"activities" key, pick one script at random (oracle index `pick`), log it,
and run every one of its commands in order through the executor.
`random.choice` on an empty `activities` list raises `IndexError`, modelled
as `none` (the exception propagates out of the loop). -/
def simulate_activity (custom : Catalog) (outc : String → Bool)
    (app : String) (pick : Nat) : Option (List Event) :=
  match (get_application_commands app custom).activities with
  | none => some []
  | some acts =>
      (acts.get? (pick % acts.length)).map (fun act =>
        Event.log .info (.simulating app act.description) ::
          act.commands.flatMap (run_command outc .activityStep))

/-- `ActivityAgent.should_switch_app`: `True` when `current_app` or
`app_start_time` is falsy, else `elapsed >= session_duration`. -/
def should_switch_app (s : AgentState) (clk : Int) : Bool :=
  if ¬ truthyApp s.current_app ∨ ¬ truthyTime s.app_start_time then true
  else
    match s.app_start_time with
    | some t0 => decide (clk - t0 ≥ s.session_duration)
    | none => true

/-- `ActivityAgent.get_next_app`: pick uniformly (oracle index `pick`) from
the configured list minus `current_app`, falling back to the full list when
the exclusion empties it; `None` for the empty list. -/
def get_next_app (apps : List String) (cur : Option String) (pick : Nat) :
    Option String :=
  if apps = [] then none
  else
    let available := apps.filter (fun a => ¬ some a = cur)
    let available := if available = [] then apps else available
    available.get? (pick % available.length)

/-- The guarded close the loop and the shutdown path perform:
`if self.current_app: [log msg;] self.close_application(self.current_app)`.
`msg` is the site-specific info record logged inside the guard (absent at
the app-switch site and in the handlers of main). -/
def closeCurrent (custom : Catalog) (outc : String → Bool)
    (msg : Option LogMsg) (s : AgentState) : AgentState × List Event :=
  match s.current_app with
  | some a =>
      if a = "" then (s, [])
      else
        let (s', evs) := close_application custom outc s a
        (s', (match msg with
              | some m => [Event.log .info m]
              | none => []) ++ evs)
  | none => (s, [])

/-- The per-iteration randomness and environment of the loop: the time of
day `now` read by `datetime.now()`, the wall clock `clk` (`time.time()`),
the `random.choice` indices, the `random.randint` draws and the executor
outcomes. -/
structure IterOracle where
  now : Nat
  clk : Int
  clkOpen : Int
  nextPick : Nat
  actPick : Nat
  pauseSecs : Nat
  newDuration : Int
  outc : String → Bool

/-- The app-switch block of `ActivityAgent.run` (the body of
`if self.should_switch_app():`): close the current app if any, log the
between-app pause, pick the next app with `get_next_app`, and — only when
`next_app` is truthy (`if next_app and self.open_application(next_app):`,
which short-circuits on a falsy name) — open it, re-randomizing
`session_duration` when the open succeeded. -/
def switchPhase (custom : Catalog) (apps : List String)
    (s : AgentState) (o : IterOracle) : AgentState × List Event :=
  let c := closeCurrent custom o.outc none s
  let evs1 := c.2 ++ [Event.log .info (.pausingBetweenApps o.pauseSecs)]
  match get_next_app apps c.1.current_app o.nextPick with
  | none => (c.1, evs1)
  | some napp =>
      if napp = "" then (c.1, evs1)
      else
        let op := open_application custom o.outc c.1 napp o.clkOpen
        if op.2.2 then
          ({ op.1 with session_duration := o.newDuration }, evs1 ++ op.2.1)
        else (op.1, evs1 ++ op.2.1)

/-- The `WORKING` part of one loop iteration: possibly switch apps
(`if self.should_switch_app():`), then simulate one activity in the current
application (`if self.current_app:`).  `none` is the only uncaught
exception path (`random.choice` on an empty activity list). -/
def workingIter (custom : Catalog) (apps : List String)
    (s : AgentState) (o : IterOracle) : Option (AgentState × List Event) :=
  let p :=
    if should_switch_app s o.clk then switchPhase custom apps s o
    else (s, [])
  match p.1.current_app with
  | some a =>
      if a = "" then some p
      else
        (simulate_activity custom o.outc a o.actPick).map
          (fun evs2 => (p.1, p.2 ++ evs2))
  | none => some p

/-- One iteration of the `while True` loop of `ActivityAgent.run`:
off-hours and break iterations only close the current app and sleep;
working iterations run `workingIter`. -/
def agentIter (custom : Catalog) (ws : WorkSchedule) (apps : List String)
    (s : AgentState) (o : IterOracle) : Option (AgentState × List Event) :=
  if ¬ is_work_time o.now ws then
    let c := closeCurrent custom o.outc (some .workTimeEnded) s
    some (c.1, c.2 ++ [Event.log .info .outsideWorkHours])
  else if is_break_time o.now ws then
    let c := closeCurrent custom o.outc (some .breakTimeClosing) s
    some (c.1, c.2 ++ [Event.log .info .breakTimeSleeping])
  else
    workingIter custom apps s o

/-- Iterating the loop under a list of per-iteration oracles, accumulating
the event trace; `none` when some iteration raised. -/
def agentRun (custom : Catalog) (ws : WorkSchedule) (apps : List String) :
    AgentState → List IterOracle → Option (AgentState × List Event)
  | s, [] => some (s, [])
  | s, o :: os =>
      match agentIter custom ws apps s o with
      | none => none
      | some pr =>
          (agentRun custom ws apps pr.1 os).map
            (fun r => (r.1, pr.2 ++ r.2))

/-- The shutdown handler of `main` (`except KeyboardInterrupt` /
`except Exception`): `if agent.current_app: agent.close_application(...)`. -/
def shutdownClose (custom : Catalog) (outc : String → Bool)
    (s : AgentState) : AgentState × List Event :=
  closeCurrent custom outc none s

/-! ## Helper definitions for trace properties -/

/-- The commands handed to the executor, in order, in a trace. -/
def execCmds : List Event → List String
  | [] => []
  | .exec _ c _ :: rest => c :: execCmds rest
  | .log _ _ :: rest => execCmds rest

/-- Is this event a warning-level log record? -/
def isWarning : Event → Bool
  | .log .warning _ => true
  | _ => false

/-- Is this event part of activity simulation (an activity-script step given
to the executor, or the log record announcing the chosen script)? -/
def isActivityEv : Event → Bool
  | .exec .activityStep _ _ => true
  | .log _ (.simulating _ _) => true
  | _ => false

/-- One step of the open/close alternation scan: `pending` records whether
an `open` command has been issued with no `close` command after it; a second
`open` while pending is the violation (`none`). -/
def scanStep (pending : Bool) : Event → Option Bool
  | .exec .openCmd _ _ => if pending then none else some true
  | .exec .closeCmd _ _ => some false
  | _ => some pending

/-- Scan a trace for two `open` executor calls with no `close` in between. -/
def openScan (p : Bool) : List Event → Option Bool
  | [] => some p
  | e :: rest =>
      match scanStep p e with
      | none => none
      | some p' => openScan p' rest

/-- A trace never issues two `open` commands without a `close` in between. -/
def NoDoubleOpen (tr : List Event) : Prop := (openScan false tr).isSome

/-- Whether an application is open in a state, for the alternation scan. -/
def pend (s : AgentState) : Bool := s.current_app.isSome

/-- Loop invariant for the at-most-one-open property: any current
application has a truthy (non-empty) name and a closable catalog profile. -/
def goodState (custom : Catalog) (s : AgentState) : Prop :=
  ∀ a, s.current_app = some a →
    a ≠ "" ∧ (get_application_commands a custom).closeCmd.isSome

/-- The SessionState coherence relation of claim C10. -/
def coherent (s : AgentState) : Prop :=
  s.current_app = none ↔ s.app_start_time = none

/-! ## Claim theorems: schedule evaluator -/

/-- C2: with `start_time ≤ end_time`, `classify` returns `OFF_HOURS` exactly
when the time of day is strictly before `start_time` or strictly after
`end_time` (whatever the breaks are); inside the work window it returns
`ON_BREAK` exactly when some break window contains the instant, and
`WORKING` otherwise; a schedule with zero breaks never yields `ON_BREAK`. -/
theorem classify_correct (now : Nat) (ws : WorkSchedule)
    (_hse : ws.startTime ≤ ws.endTime) :
    (classify now ws = .OFF_HOURS ↔
      (now < ws.startTime ∨ ws.endTime < now)) ∧
    (ws.startTime ≤ now → now ≤ ws.endTime →
      ((classify now ws = .ON_BREAK ↔ ∃ b ∈ ws.breaks, inBreak now b) ∧
       (¬ (∃ b ∈ ws.breaks, inBreak now b) → classify now ws = .WORKING))) ∧
    (ws.breaks = [] → classify now ws ≠ .ON_BREAK) := by
  have hwork : is_work_time now ws = true ↔
      (ws.startTime ≤ now ∧ now ≤ ws.endTime) := by
    simp [is_work_time]
  have hbreak : is_break_time now ws = true ↔ ∃ b ∈ ws.breaks, inBreak now b := by
    simp [is_break_time, List.any_eq_true]
  refine ⟨?_, ?_, ?_⟩
  · by_cases hw : is_work_time now ws
    · have := hwork.mp hw
      simp [classify, hw]
      constructor
      · intro h
        split at h <;> simp_all
      · omega
    · have : ¬ (ws.startTime ≤ now ∧ now ≤ ws.endTime) := fun h => hw (hwork.mpr h)
      simp [classify, hw]
      omega
  · intro h1 h2
    have hw : is_work_time now ws = true := hwork.mpr ⟨h1, h2⟩
    constructor
    · by_cases hb : is_break_time now ws
      · simp [classify, hw, hb, hbreak.mp hb]
      · have : ¬ ∃ b ∈ ws.breaks, inBreak now b := fun h => hb (hbreak.mpr h)
        simp [classify, hw, hb, this]
    · intro hnb
      have hb : is_break_time now ws ≠ true := fun h => hnb (hbreak.mp h)
      simp [classify, hw, hb]
  · intro hz
    have hb : is_break_time now ws = false := by simp [is_break_time, hz]
    by_cases hw : is_work_time now ws <;> simp [classify, hw, hb]

/-- Witness for C2 at the default schedule 09:00–18:00 with the lunch break
13:00 + 60 minutes, at the instant 13:00 (46800 s). -/
theorem classify_correct_witness :
    (classify 46800 ⟨32400, 64800, [⟨46800, 60⟩]⟩ = .OFF_HOURS ↔
      (46800 < 32400 ∨ 64800 < 46800)) ∧
    (32400 ≤ 46800 → 46800 ≤ 64800 →
      ((classify 46800 ⟨32400, 64800, [⟨46800, 60⟩]⟩ = .ON_BREAK ↔
          ∃ b ∈ [(⟨46800, 60⟩ : BreakInfo)], inBreak 46800 b) ∧
       (¬ (∃ b ∈ [(⟨46800, 60⟩ : BreakInfo)], inBreak 46800 b) →
          classify 46800 ⟨32400, 64800, [⟨46800, 60⟩]⟩ = .WORKING))) ∧
    ([(⟨46800, 60⟩ : BreakInfo)] = ([] : List BreakInfo) →
      classify 46800 ⟨32400, 64800, [⟨46800, 60⟩]⟩ ≠ .ON_BREAK) :=
  classify_correct 46800 ⟨32400, 64800, [⟨46800, 60⟩]⟩ (by decide)

/-- C3: for the break `{start: 13:00, duration_minutes: 60}` inside the work
window 09:00–18:00, classification is `WORKING` at 12:59, `ON_BREAK` at
13:00 and at 14:00 (inclusive end), `WORKING` at 14:01. -/
theorem classify_boundary_instants :
    classify 46740 ⟨32400, 64800, [⟨46800, 60⟩]⟩ = .WORKING ∧
    classify 46800 ⟨32400, 64800, [⟨46800, 60⟩]⟩ = .ON_BREAK ∧
    classify 50400 ⟨32400, 64800, [⟨46800, 60⟩]⟩ = .ON_BREAK ∧
    classify 50460 ⟨32400, 64800, [⟨46800, 60⟩]⟩ = .WORKING := by
  decide

/-! ## Claim theorems: next-app selection -/

/-- C5 counterexample: the list `["A", "A"]` has two entries and contains
`current_app = "A"`, yet `get_next_app` returns `"A"` (the exclusion empties
the candidate set, so the source falls back to the full list) — refuting
"for every configured application list with at least 2 entries and
current_app a member of the list, get_next_app never returns current_app". -/
theorem get_next_app_duplicate_returns_current :
    get_next_app ["A", "A"] (some "A") 0 = some "A" := by
  decide

/-- C5 (amended): whenever the configured list contains at least one entry
different from `current_app`, `get_next_app` never returns `current_app`
(in particular for `["A", "B"]` with `current_app = "A"` it always returns
`"B"`); for `["A"]` with `current_app = "A"` it returns `"A"` (fallback). -/
theorem get_next_app_exclusion :
    (∀ apps c pick, (∃ a ∈ apps, a ≠ c) →
      get_next_app apps (some c) pick ≠ some c) ∧
    (∀ pick, get_next_app ["A", "B"] (some "A") pick = some "B") ∧
    (∀ pick, get_next_app ["A"] (some "A") pick = some "A") := by
  refine ⟨?_, ?_, ?_⟩
  · intro apps c pick h hcon
    obtain ⟨a, ha, hac⟩ := h
    have hne : apps ≠ [] := by rintro rfl; exact absurd ha (List.not_mem_nil a)
    have hmem : a ∈ apps.filter (fun x => ¬ some x = some c) := by
      simp [List.mem_filter, ha, hac]
    have hfne : apps.filter (fun x => ¬ some x = some c) ≠ [] := by
      intro h0; rw [h0] at hmem; exact List.not_mem_nil a hmem
    rw [get_next_app] at hcon
    simp only [hne, if_false] at hcon
    rw [if_neg hfne] at hcon
    have := List.get?_mem hcon
    have := (List.mem_filter.mp this).2
    simp at this
  · intro pick
    have h2 : get_next_app ["A", "B"] (some "A") pick =
        List.get? ["B"] (pick % 1) := rfl
    rw [h2, Nat.mod_one]
    rfl
  · intro pick
    have h1 : get_next_app ["A"] (some "A") pick =
        List.get? ["A"] (pick % 1) := rfl
    rw [h1, Nat.mod_one]
    rfl

/-- Witness for C5 (amended) at `["A", "B"]`, `current_app = "A"`,
pick index 5. -/
theorem get_next_app_exclusion_witness :
    get_next_app ["A", "B"] (some "A") 5 ≠ some "A" :=
  get_next_app_exclusion.1 ["A", "B"] "A" 5 ⟨"B", by decide, by decide⟩

/-! ## Claim theorems: close on the empty session -/

/-- C7: the guarded close operation (`if self.current_app:
self.close_application(...)`, as performed by the scheduler loop and the
shutdown path) is a no-op when `current_app` is `None`: no executor call is
emitted and the SessionState is returned unchanged. -/
theorem close_when_none_noop (custom : Catalog) (outc : String → Bool)
    (msg : Option LogMsg) (s : AgentState) (h : s.current_app = none) :
    closeCurrent custom outc msg s = (s, []) := by
  simp [closeCurrent, h]

/-- Witness for C7 at the freshly constructed agent state. -/
theorem close_when_none_noop_witness :
    closeCurrent [] (fun _ => true) none (initState 300) = (initState 300, []) :=
  close_when_none_noop [] (fun _ => true) none (initState 300) rfl

/-! ## Claim theorems: best-effort activity execution -/

lemma execCmds_append (a b : List Event) :
    execCmds (a ++ b) = execCmds a ++ execCmds b := by
  induction a with
  | nil => rfl
  | cons e rest ih => cases e <;> simp [execCmds, ih]

lemma execCmds_run_command (outc : String → Bool) (role : ExecRole)
    (c : String) : execCmds (run_command outc role c) = [c] := by
  by_cases h : outc c <;> simp [run_command, h, execCmds]

lemma execCmds_flatMap_run (outc : String → Bool) (cmds : List String) :
    execCmds (cmds.flatMap (run_command outc .activityStep)) = cmds := by
  induction cmds with
  | nil => rfl
  | cons c rest ih =>
      rw [List.flatMap_cons, execCmds_append, execCmds_run_command, ih]
      rfl

/-- C6: whatever the executor outcomes `outc` are — in particular when some
or all primitive actions fail — `simulate_activity` hands every command of
the chosen activity script to the executor, in script order, with no early
termination and no exception: the executor invocation sequence is exactly
the script's step list, so the invocation count equals the step count. -/
theorem simulate_activity_best_effort (custom : Catalog)
    (outc : String → Bool) (app : String) (pick : Nat)
    (act : ActivityScript) (h : chosenScript custom app pick = some act) :
    ∃ evs, simulate_activity custom outc app pick = some evs ∧
      execCmds evs = act.commands ∧
      (execCmds evs).length = act.commands.length := by
  rw [chosenScript] at h
  rw [simulate_activity]
  cases hact : (get_application_commands app custom).activities with
  | none => simp [hact] at h
  | some acts =>
      simp only [hact] at h ⊢
      rw [h, Option.map_some']
      refine ⟨_, rfl, ?_, ?_⟩ <;>
        simp [execCmds, execCmds_flatMap_run]

/-- Witness for C6: the "Typing message" script of the built-in Slack
profile, with an executor on which every command fails. -/
theorem simulate_activity_best_effort_witness :
    ∃ evs, simulate_activity [] (fun _ => false) "Slack" 1 = some evs ∧
      execCmds evs =
        (⟨"Typing message",
          ["xdotool type \x27Good morning team!\x27", "xdotool key Return"]⟩ :
          ActivityScript).commands ∧
      (execCmds evs).length =
        (⟨"Typing message",
          ["xdotool type \x27Good morning team!\x27", "xdotool key Return"]⟩ :
          ActivityScript).commands.length :=
  simulate_activity_best_effort [] (fun _ => false) "Slack" 1
    ⟨"Typing message",
      ["xdotool type \x27Good morning team!\x27", "xdotool key Return"]⟩
    (by rfl)

/-! ## Claim theorems: catalog lookup miss -/

/-- C8 counterexample: for the application name `"NotAnApp"`, absent from
both the (empty) custom overrides and the built-in catalog, open, close and
simulate emit no events at all — in particular the miss is NOT logged as a
warning, refuting the claim's "the miss is logged as a warning" (they are
indeed crash-free no-ops towards the executor). -/
theorem lookup_miss_not_logged :
    catFind [] "NotAnApp" = none ∧
    catFind app_configs "NotAnApp" = none ∧
    open_application [] (fun _ => true) (initState 300) "NotAnApp" 1 =
      (initState 300, [], false) ∧
    close_application [] (fun _ => true) (initState 300) "NotAnApp" =
      (initState 300, []) ∧
    simulate_activity [] (fun _ => true) "NotAnApp" 0 = some [] ∧
    List.filter isWarning
      (open_application [] (fun _ => true) (initState 300) "NotAnApp" 1).2.1
      = [] ∧
    List.filter isWarning
      (close_application [] (fun _ => true) (initState 300) "NotAnApp").2
      = [] := by
  refine ⟨rfl, by decide, rfl, ?_, rfl, rfl, ?_⟩ <;> rfl

/-- C8 (amended): for every application name found neither in the custom
overrides nor in the built-in catalog, open, close and simulate are each a
no-op towards the executor — no executor call, no log record of any kind
(in particular no warning), no crash; open reports failure and leaves the
state unchanged, close clears the session fields as always, simulate
returns without choosing a script. -/
theorem lookup_miss_noop (custom : Catalog) (outc : String → Bool)
    (s : AgentState) (app : String) (clk : Int) (pick : Nat)
    (h1 : catFind custom app = none)
    (h2 : catFind app_configs app = none) :
    open_application custom outc s app clk = (s, [], false) ∧
    close_application custom outc s app =
      ({ s with current_app := none, app_start_time := none }, []) ∧
    simulate_activity custom outc app pick = some [] := by
  have hm : get_application_commands app custom = emptyCommands := by
    rw [get_application_commands, h1, h2]
    rfl
  refine ⟨?_, ?_, ?_⟩ <;>
    simp [open_application, close_application, simulate_activity, hm,
      emptyCommands]

/-- Witness for C8 (amended) at the missing name `"NotAnApp"`. -/
theorem lookup_miss_noop_witness :
    open_application [] (fun _ => false) (initState 500) "NotAnApp" 7 =
      (initState 500, [], false) ∧
    close_application [] (fun _ => false) (initState 500) "NotAnApp" =
      ({ initState 500 with current_app := none, app_start_time := none },
       []) ∧
    simulate_activity [] (fun _ => false) "NotAnApp" 3 = some [] :=
  lookup_miss_noop [] (fun _ => false) (initState 500) "NotAnApp" 7 3
    rfl (by decide)

/-! ## Branch lemmas for the loop iteration -/

lemma agentIter_off (custom : Catalog) (ws : WorkSchedule)
    (apps : List String) (s : AgentState) (o : IterOracle)
    (hw : is_work_time o.now ws = false) :
    agentIter custom ws apps s o =
      some ((closeCurrent custom o.outc (some .workTimeEnded) s).1,
            (closeCurrent custom o.outc (some .workTimeEnded) s).2 ++
              [Event.log .info .outsideWorkHours]) := by
  rw [agentIter]
  simp [hw]

lemma agentIter_break (custom : Catalog) (ws : WorkSchedule)
    (apps : List String) (s : AgentState) (o : IterOracle)
    (hw : is_work_time o.now ws = true)
    (hb : is_break_time o.now ws = true) :
    agentIter custom ws apps s o =
      some ((closeCurrent custom o.outc (some .breakTimeClosing) s).1,
            (closeCurrent custom o.outc (some .breakTimeClosing) s).2 ++
              [Event.log .info .breakTimeSleeping]) := by
  rw [agentIter]
  simp [hw, hb]

lemma agentIter_working (custom : Catalog) (ws : WorkSchedule)
    (apps : List String) (s : AgentState) (o : IterOracle)
    (hw : is_work_time o.now ws = true)
    (hb : is_break_time o.now ws = false) :
    agentIter custom ws apps s o = workingIter custom apps s o := by
  rw [agentIter]
  simp [hw, hb]

lemma closeCurrent_no_activity (custom : Catalog) (outc : String → Bool)
    (msg : Option LogMsg) (s : AgentState)
    (hmsg : msg = none ∨ msg = some .workTimeEnded ∨
      msg = some .breakTimeClosing) :
    ((closeCurrent custom outc msg s).2).filter isActivityEv = [] := by
  cases hc : s.current_app with
  | none => simp [closeCurrent, hc]
  | some a =>
      by_cases ha : a = ""
      · simp [closeCurrent, hc, ha]
      · cases hcc : (get_application_commands a custom).closeCmd with
        | none =>
            rcases hmsg with rfl | rfl | rfl <;>
              simp [closeCurrent, hc, ha, close_application, hcc, isActivityEv]
        | some c =>
            rcases hmsg with rfl | rfl | rfl <;> by_cases ho : outc c <;>
              simp [closeCurrent, hc, ha, close_application, hcc,
                run_command, ho, isActivityEv]

/-! ## Claim theorems: no activity outside working iterations -/

/-- C1: in every loop iteration whose schedule classification is
`OFF_HOURS` or `ON_BREAK` (i.e. not `WORKING`), the iteration completes
without choosing an activity script and without executing any activity-step
primitive action: the trace of the iteration contains no activity event.
(The only executor call such an iteration can make is the close command of
a currently open application.) -/
theorem no_activity_when_not_working (custom : Catalog) (ws : WorkSchedule)
    (apps : List String) (s : AgentState) (o : IterOracle)
    (h : classify o.now ws ≠ .WORKING) :
    ∃ s' evs, agentIter custom ws apps s o = some (s', evs) ∧
      evs.filter isActivityEv = [] := by
  by_cases hw : is_work_time o.now ws
  · by_cases hb : is_break_time o.now ws
    · refine ⟨_, _, agentIter_break custom ws apps s o hw hb, ?_⟩
      rw [List.filter_append,
        closeCurrent_no_activity custom o.outc _ s (Or.inr (Or.inr rfl))]
      rfl
    · exact absurd (by simp [classify, hw, hb]) h
  · refine ⟨_, _, agentIter_off custom ws apps s o (by simpa using hw), ?_⟩
    rw [List.filter_append,
      closeCurrent_no_activity custom o.outc _ s (Or.inr (Or.inl rfl))]
    rfl

/-- Witness for C1: an off-hours instant (19:26:40, i.e. 70000 s) of the
default 09:00–18:00 schedule, with Slack currently open. -/
theorem no_activity_when_not_working_witness :
    ∃ s' evs,
      agentIter [] ⟨32400, 64800, [⟨46800, 60⟩]⟩ ["Slack"]
        ⟨some "Slack", some 5, 300⟩
        ⟨70000, 600, 601, 0, 0, 30, 400, fun _ => true⟩ = some (s', evs) ∧
      evs.filter isActivityEv = [] :=
  no_activity_when_not_working [] ⟨32400, 64800, [⟨46800, 60⟩]⟩ ["Slack"]
    ⟨some "Slack", some 5, 300⟩
    ⟨70000, 600, 601, 0, 0, 30, 400, fun _ => true⟩ (by decide)

/-! ## Claim theorems: SessionState coherence -/

lemma coherent_closeCurrent (custom : Catalog) (outc : String → Bool)
    (msg : Option LogMsg) (s : AgentState) (h : coherent s) :
    coherent (closeCurrent custom outc msg s).1 := by
  cases hc : s.current_app with
  | none => simpa [closeCurrent, hc] using h
  | some a =>
      by_cases ha : a = ""
      · simpa [closeCurrent, hc, ha] using h
      · simp [closeCurrent, hc, ha, close_application, coherent]

lemma closeCurrent_current_none_or_self (custom : Catalog)
    (outc : String → Bool) (msg : Option LogMsg) (s : AgentState) :
    (closeCurrent custom outc msg s).1 = s ∨
    (closeCurrent custom outc msg s).1 =
      { s with current_app := none, app_start_time := none } := by
  cases hc : s.current_app with
  | none => left; simp [closeCurrent, hc]
  | some a =>
      by_cases ha : a = ""
      · left; simp [closeCurrent, hc, ha]
      · right; simp [closeCurrent, hc, ha, close_application]

lemma coherent_open (custom : Catalog) (outc : String → Bool)
    (s : AgentState) (app : String) (clk : Int) (h : coherent s) :
    coherent (open_application custom outc s app clk).1 := by
  cases ho : (get_application_commands app custom).openCmd with
  | none => simpa [open_application, ho] using h
  | some c => simp [open_application, ho, coherent]

lemma coherent_switchPhase (custom : Catalog) (apps : List String)
    (s : AgentState) (o : IterOracle) (h : coherent s) :
    coherent (switchPhase custom apps s o).1 := by
  simp only [switchPhase]
  have h1 : coherent (closeCurrent custom o.outc none s).1 :=
    coherent_closeCurrent custom o.outc none s h
  cases hn : get_next_app apps (closeCurrent custom o.outc none s).1.current_app
      o.nextPick with
  | none => simpa [hn] using h1
  | some napp =>
      by_cases hne : napp = ""
      · simpa [hn, hne] using h1
      · have h2 : coherent
            (open_application custom o.outc (closeCurrent custom o.outc none s).1
              napp o.clkOpen).1 :=
          coherent_open custom o.outc _ napp o.clkOpen h1
        by_cases hok :
            (open_application custom o.outc (closeCurrent custom o.outc none s).1
              napp o.clkOpen).2.2
        · simpa [hn, hne, hok, coherent] using h2
        · simpa [hn, hne, hok, coherent] using h2

lemma coherent_workingIter (custom : Catalog) (apps : List String)
    (s : AgentState) (o : IterOracle) (s' : AgentState) (evs : List Event)
    (h : coherent s)
    (hit : workingIter custom apps s o = some (s', evs)) : coherent s' := by
  rw [workingIter] at hit
  set p :=
    (if should_switch_app s o.clk then switchPhase custom apps s o
     else (s, ([] : List Event))) with hp
  have hcp : coherent p.1 := by
    rw [hp]
    split
    · exact coherent_switchPhase custom apps s o h
    · exact h
  cases hc : p.1.current_app with
  | none =>
      simp only [hc] at hit
      injection hit with h2
      have h3 : p.1 = s' := congrArg Prod.fst h2
      exact h3 ▸ hcp
  | some a =>
      by_cases ha : a = ""
      · simp only [hc, ha, if_pos] at hit
        injection hit with h2
        have h3 : p.1 = s' := congrArg Prod.fst h2
        exact h3 ▸ hcp
      · simp only [hc, if_neg ha] at hit
        cases hsim : simulate_activity custom o.outc a o.actPick with
        | none => rw [hsim] at hit; simp at hit
        | some evs2 =>
            rw [hsim] at hit
            simp only [Option.map_some'] at hit
            injection hit with h2
            have h3 : p.1 = s' := congrArg Prod.fst h2
            exact h3 ▸ hcp

lemma coherent_agentIter (custom : Catalog) (ws : WorkSchedule)
    (apps : List String) (s : AgentState) (o : IterOracle)
    (s' : AgentState) (evs : List Event) (h : coherent s)
    (hit : agentIter custom ws apps s o = some (s', evs)) : coherent s' := by
  by_cases hw : is_work_time o.now ws
  · by_cases hb : is_break_time o.now ws
    · rw [agentIter_break custom ws apps s o hw hb] at hit
      injection hit with h2
      have h3 : (closeCurrent custom o.outc (some .breakTimeClosing) s).1 = s' :=
        congrArg Prod.fst h2
      exact h3 ▸ coherent_closeCurrent custom o.outc _ s h
    · rw [agentIter_working custom ws apps s o hw (by simpa using hb)] at hit
      exact coherent_workingIter custom apps s o s' evs h hit
  · rw [agentIter_off custom ws apps s o (by simpa using hw)] at hit
    injection hit with h2
    have h3 : (closeCurrent custom o.outc (some .workTimeEnded) s).1 = s' :=
      congrArg Prod.fst h2
    exact h3 ▸ coherent_closeCurrent custom o.outc _ s h

/-- C10: SessionState coherence — `current_app` is `None` exactly when
`app_start_time` is `None`; the relation holds at construction
(`__init__`) and is preserved by `open_application` (both outcomes), by
`close_application`, and by every loop iteration of `run`. -/
theorem session_state_coherence :
    (∀ d, coherent (initState d)) ∧
    (∀ custom outc s app clk, coherent s →
      coherent (open_application custom outc s app clk).1) ∧
    (∀ custom outc s app,
      coherent (close_application custom outc s app).1) ∧
    (∀ custom ws apps s o s' evs, coherent s →
      agentIter custom ws apps s o = some (s', evs) → coherent s') := by
  refine ⟨?_, ?_, ?_, ?_⟩
  · intro d; simp [initState, coherent]
  · intro custom outc s app clk h; exact coherent_open custom outc s app clk h
  · intro custom outc s app; simp [close_application, coherent]
  · intro custom ws apps s o s' evs h hit
    exact coherent_agentIter custom ws apps s o s' evs h hit

/-- Witness for C10: opening Slack from the freshly constructed state. -/
theorem session_state_coherence_witness :
    coherent (open_application [] (fun _ => true) (initState 300) "Slack" 9).1 :=
  session_state_coherence.2.1 [] (fun _ => true) (initState 300) "Slack" 9
    (by simp [initState, coherent])

/-! ## Claim theorems: shutdown close -/

/-- C9 (supporting evaluation): the shutdown handler of `main`
(`if agent.current_app: agent.close_application(agent.current_app)`) run
while Slack is open issues exactly one close executor call and clears the
session.  (The hung-close divergence itself — `subprocess.run` without any
timeout — is a real-time property outside the model.) -/
theorem shutdown_close_issues_one_close :
    ((shutdownClose [] (fun _ => true) ⟨some "Slack", some 5, 300⟩).2.filter
        (fun e => match e with
          | .exec .closeCmd _ _ => true
          | _ => false)).length = 1 ∧
    (shutdownClose [] (fun _ => true)
      ⟨some "Slack", some 5, 300⟩).1.current_app = none := by
  decide

/-! ## Claim theorems: at-most-one-open invariant -/

/-- Events irrelevant to the open/close alternation. -/
def scanNeutral : Event → Bool
  | .exec .openCmd _ _ => false
  | .exec .closeCmd _ _ => false
  | _ => true

lemma scanStep_neutral (p : Bool) (e : Event) (h : scanNeutral e = true) :
    scanStep p e = some p := by
  cases e with
  | exec role c ok => cases role <;> simp [scanNeutral] at h <;> rfl
  | log lvl m => rfl

lemma openScan_neutral (evs : List Event)
    (h : ∀ e ∈ evs, scanNeutral e = true) (p : Bool) :
    openScan p evs = some p := by
  induction evs with
  | nil => rfl
  | cons e rest ih =>
      rw [openScan, scanStep_neutral p e (h e (List.mem_cons_self e rest))]
      exact ih (fun e' he' => h e' (List.mem_cons_of_mem _ he'))

lemma openScan_append (t1 t2 : List Event) (p : Bool) :
    openScan p (t1 ++ t2) =
      (openScan p t1).bind (fun p' => openScan p' t2) := by
  induction t1 generalizing p with
  | nil => rfl
  | cons e rest ih =>
      rw [List.cons_append, openScan, openScan]
      cases scanStep p e with
      | none => rfl
      | some p' => exact ih p'

lemma run_command_neutral (outc : String → Bool) (c : String) :
    ∀ e ∈ run_command outc .activityStep c, scanNeutral e = true := by
  intro e he
  by_cases ho : outc c <;> simp [run_command, ho] at he <;>
    rcases he with rfl | rfl <;> rfl

lemma simulate_activity_neutral (custom : Catalog) (outc : String → Bool)
    (a : String) (pick : Nat) (evs : List Event)
    (h : simulate_activity custom outc a pick = some evs) :
    ∀ e ∈ evs, scanNeutral e = true := by
  cases hact : (get_application_commands a custom).activities with
  | none =>
      simp only [simulate_activity, hact] at h
      injection h with h2
      subst h2
      intro e he
      exact absurd he (List.not_mem_nil e)
  | some acts =>
      simp only [simulate_activity, hact] at h
      obtain ⟨act, -, hevs⟩ := Option.map_eq_some'.mp h
      subst hevs
      intro e he
      rcases List.mem_cons.mp he with rfl | he2
      · rfl
      · obtain ⟨c, -, hec⟩ := List.mem_flatMap.mp he2
        exact run_command_neutral outc c e hec

lemma closeCurrent_scan (custom : Catalog) (outc : String → Bool)
    (msg : Option LogMsg) (s : AgentState) (hs : goodState custom s) :
    openScan (pend s) (closeCurrent custom outc msg s).2 = some false ∧
    (closeCurrent custom outc msg s).1.current_app = none ∧
    goodState custom (closeCurrent custom outc msg s).1 := by
  cases hc : s.current_app with
  | none =>
      refine ⟨?_, ?_, ?_⟩
      · simp [closeCurrent, hc, pend, openScan]
      · simp [closeCurrent, hc]
      · intro a' ha'
        simp only [closeCurrent, hc] at ha'
        exact absurd ha' (by simp)
  | some a =>
      obtain ⟨ha, hclose⟩ := hs a hc
      obtain ⟨c, hc2⟩ := Option.isSome_iff_exists.mp hclose
      have hres : (closeCurrent custom outc msg s).1 =
          { s with current_app := none, app_start_time := none } := by
        simp [closeCurrent, hc, ha, close_application]
      refine ⟨?_, by rw [hres], ?_⟩
      · rcases msg with - | m <;> by_cases ho : outc c <;>
          simp [closeCurrent, hc, ha, close_application, hc2, run_command,
            ho, pend, openScan, scanStep]
      · intro a' ha'
        rw [hres] at ha'
        exact absurd ha' (by simp)

lemma switchPhase_scan (custom : Catalog) (apps : List String)
    (s : AgentState) (o : IterOracle)
    (hpre : ∀ app, (get_application_commands app custom).openCmd.isSome →
      (get_application_commands app custom).closeCmd.isSome)
    (hs : goodState custom s) :
    openScan (pend s) (switchPhase custom apps s o).2 =
      some (pend (switchPhase custom apps s o).1) ∧
    goodState custom (switchPhase custom apps s o).1 := by
  obtain ⟨hscan, hcur, hgood⟩ := closeCurrent_scan custom o.outc none s hs
  have hp1 : pend (closeCurrent custom o.outc none s).1 = false := by
    simp only [pend, hcur, Option.isSome_none]
  have hscan1 : openScan (pend s)
      ((closeCurrent custom o.outc none s).2 ++
        [Event.log .info (.pausingBetweenApps o.pauseSecs)]) = some false := by
    rw [openScan_append, hscan]
    rfl
  simp only [switchPhase]
  cases hn : get_next_app apps
      (closeCurrent custom o.outc none s).1.current_app o.nextPick with
  | none =>
      simp only [hn]
      exact ⟨hp1 ▸ hscan1, hgood⟩
  | some napp =>
      by_cases hne : napp = ""
      · simp only [hn, hne, if_pos]
        exact ⟨hp1 ▸ hscan1, hgood⟩
      · simp only [hn, if_neg hne]
        cases ho : (get_application_commands napp custom).openCmd with
        | none =>
            have hop : open_application custom o.outc
                (closeCurrent custom o.outc none s).1 napp o.clkOpen =
                ((closeCurrent custom o.outc none s).1, [], false) := by
              simp [open_application, ho]
            rw [hop]
            constructor
            · show openScan (pend s)
                  (((closeCurrent custom o.outc none s).2 ++
                    [Event.log .info (.pausingBetweenApps o.pauseSecs)]) ++ []) =
                some (pend (closeCurrent custom o.outc none s).1)
              rw [List.append_nil, hp1]
              exact hscan1
            · show goodState custom (closeCurrent custom o.outc none s).1
              exact hgood
        | some cmd =>
            have hcl : (get_application_commands napp custom).closeCmd.isSome :=
              hpre napp (by rw [ho]; rfl)
            have hop : open_application custom o.outc
                (closeCurrent custom o.outc none s).1 napp o.clkOpen =
                ({ (closeCurrent custom o.outc none s).1 with
                    current_app := some napp, app_start_time := some o.clkOpen },
                 Event.log .info (.openingApp napp) ::
                   run_command o.outc .openCmd cmd,
                 true) := by
              simp [open_application, ho]
            rw [hop]
            constructor
            · show openScan (pend s)
                  (((closeCurrent custom o.outc none s).2 ++
                    [Event.log .info (.pausingBetweenApps o.pauseSecs)]) ++
                   (Event.log .info (.openingApp napp) ::
                     run_command o.outc .openCmd cmd)) = some true
              rw [openScan_append, hscan1]
              by_cases hoc : o.outc cmd <;>
                simp [run_command, hoc, openScan, scanStep]
            · intro a' ha'
              have h2 : napp = a' := by
                simpa using ha'
              exact h2 ▸ ⟨hne, hcl⟩

lemma workingIter_scan (custom : Catalog) (apps : List String)
    (s : AgentState) (o : IterOracle)
    (hpre : ∀ app, (get_application_commands app custom).openCmd.isSome →
      (get_application_commands app custom).closeCmd.isSome)
    (hs : goodState custom s) (s' : AgentState) (evs : List Event)
    (hit : workingIter custom apps s o = some (s', evs)) :
    goodState custom s' ∧ openScan (pend s) evs = some (pend s') := by
  rw [workingIter] at hit
  set p :=
    (if should_switch_app s o.clk then switchPhase custom apps s o
     else (s, ([] : List Event))) with hp
  have hps : openScan (pend s) p.2 = some (pend p.1) ∧ goodState custom p.1 := by
    rw [hp]
    split
    · exact switchPhase_scan custom apps s o hpre hs
    · exact ⟨rfl, hs⟩
  cases hc : p.1.current_app with
  | none =>
      simp only [hc] at hit
      injection hit with h2
      have h3 : p.1 = s' := congrArg Prod.fst h2
      have h4 : p.2 = evs := congrArg Prod.snd h2
      exact ⟨h3 ▸ hps.2, h3 ▸ h4 ▸ hps.1⟩
  | some a =>
      by_cases ha : a = ""
      · simp only [hc, ha, if_pos] at hit
        injection hit with h2
        have h3 : p.1 = s' := congrArg Prod.fst h2
        have h4 : p.2 = evs := congrArg Prod.snd h2
        exact ⟨h3 ▸ hps.2, h3 ▸ h4 ▸ hps.1⟩
      · simp only [hc, if_neg ha] at hit
        cases hsim : simulate_activity custom o.outc a o.actPick with
        | none => rw [hsim] at hit; simp at hit
        | some evs2 =>
            rw [hsim] at hit
            simp only [Option.map_some'] at hit
            injection hit with h2
            have h3 : p.1 = s' := congrArg Prod.fst h2
            have h4 : p.2 ++ evs2 = evs := congrArg Prod.snd h2
            refine ⟨h3 ▸ hps.2, ?_⟩
            rw [← h4, openScan_append, hps.1]
            simp only [Option.some_bind]
            rw [openScan_neutral evs2
              (simulate_activity_neutral custom o.outc a o.actPick evs2 hsim)]
            rw [h3]

lemma agentIter_scan (custom : Catalog) (ws : WorkSchedule)
    (apps : List String) (s : AgentState) (o : IterOracle)
    (hpre : ∀ app, (get_application_commands app custom).openCmd.isSome →
      (get_application_commands app custom).closeCmd.isSome)
    (hs : goodState custom s) (s' : AgentState) (evs : List Event)
    (hit : agentIter custom ws apps s o = some (s', evs)) :
    goodState custom s' ∧ openScan (pend s) evs = some (pend s') := by
  by_cases hw : is_work_time o.now ws
  · by_cases hb : is_break_time o.now ws
    · rw [agentIter_break custom ws apps s o hw hb] at hit
      injection hit with h2
      obtain ⟨hscan, hcur, hgood⟩ :=
        closeCurrent_scan custom o.outc (some .breakTimeClosing) s hs
      have h3 : (closeCurrent custom o.outc (some .breakTimeClosing) s).1 = s' :=
        congrArg Prod.fst h2
      have h4 : (closeCurrent custom o.outc (some .breakTimeClosing) s).2 ++
          [Event.log .info .breakTimeSleeping] = evs := congrArg Prod.snd h2
      refine ⟨h3 ▸ hgood, ?_⟩
      rw [← h4, openScan_append, hscan]
      simp only [Option.bind_some, openScan, scanStep]
      rw [← h3, pend, hcur]
      rfl
    · rw [agentIter_working custom ws apps s o hw (by simpa using hb)] at hit
      exact workingIter_scan custom apps s o hpre hs s' evs hit
  · rw [agentIter_off custom ws apps s o (by simpa using hw)] at hit
    injection hit with h2
    obtain ⟨hscan, hcur, hgood⟩ :=
      closeCurrent_scan custom o.outc (some .workTimeEnded) s hs
    have h3 : (closeCurrent custom o.outc (some .workTimeEnded) s).1 = s' :=
      congrArg Prod.fst h2
    have h4 : (closeCurrent custom o.outc (some .workTimeEnded) s).2 ++
        [Event.log .info .outsideWorkHours] = evs := congrArg Prod.snd h2
    refine ⟨h3 ▸ hgood, ?_⟩
    rw [← h4, openScan_append, hscan]
    simp only [Option.bind_some, openScan, scanStep]
    rw [← h3, pend, hcur]
    rfl

lemma agentRun_scan (custom : Catalog) (ws : WorkSchedule)
    (apps : List String)
    (hpre : ∀ app, (get_application_commands app custom).openCmd.isSome →
      (get_application_commands app custom).closeCmd.isSome) :
    ∀ os (s : AgentState), goodState custom s →
      ∀ s' tr, agentRun custom ws apps s os = some (s', tr) →
        goodState custom s' ∧ openScan (pend s) tr = some (pend s') := by
  intro os
  induction os with
  | nil =>
      intro s hs s' tr h
      rw [agentRun] at h
      injection h with h2
      have h3 : s = s' := congrArg Prod.fst h2
      have h4 : ([] : List Event) = tr := congrArg Prod.snd h2
      exact ⟨h3 ▸ hs, h3 ▸ h4 ▸ rfl⟩
  | cons o rest ih =>
      intro s hs s' tr h
      rw [agentRun] at h
      cases hi : agentIter custom ws apps s o with
      | none => rw [hi] at h; simp at h
      | some pr =>
          rw [hi] at h
          obtain ⟨hg1, hs1⟩ :=
            agentIter_scan custom ws apps s o hpre hs pr.1 pr.2 hi
          cases hrest : agentRun custom ws apps pr.1 rest with
          | none =>
              simp only [hrest, Option.map_none'] at h
              exact Option.noConfusion h
          | some pr2 =>
              simp only [hrest, Option.map_some'] at h
              injection h with h2
              obtain ⟨hg2, hs2⟩ := ih pr.1 hg1 pr2.1 pr2.2 hrest
              have h3 : pr2.1 = s' := congrArg Prod.fst h2
              have h4 : pr.2 ++ pr2.2 = tr := congrArg Prod.snd h2
              refine ⟨h3 ▸ hg2, ?_⟩
              rw [← h4, openScan_append, hs1]
              simpa only [Option.bind_some, h3] using hs2

lemma builtin_open_imp_close : ∀ app : String,
    (get_application_commands app ([] : Catalog)).openCmd.isSome →
    (get_application_commands app ([] : Catalog)).closeCmd.isSome := by
  intro app h
  have heq : get_application_commands app ([] : Catalog) =
      (catFind app_configs app).getD emptyCommands := rfl
  rw [heq] at h ⊢
  cases hf : catFind app_configs app with
  | none => simp [hf, emptyCommands] at h
  | some c =>
      simp only [hf, Option.getD_some] at h ⊢
      obtain ⟨pr, hp, hpc⟩ := Option.map_eq_some'.mp hf
      have hmem := List.mem_of_find?_eq_some hp
      simp only [app_configs, List.mem_cons, List.not_mem_nil, or_false]
        at hmem
      rcases hmem with rfl | rfl | rfl | rfl | rfl <;> (rw [← hpc]; rfl)

/-- C4: under the precondition that every application whose catalog profile
provides an `open` command also has a `close` command, the loop started
from the freshly constructed agent keeps `current_app` equal to `None` or a
single application name, and its whole event trace never contains two
`open` executor calls without a `close` executor call in between. -/
theorem at_most_one_open (custom : Catalog) (ws : WorkSchedule)
    (apps : List String) (d : Int) (os : List IterOracle)
    (hpre : ∀ app, (get_application_commands app custom).openCmd.isSome →
      (get_application_commands app custom).closeCmd.isSome)
    (s' : AgentState) (tr : List Event)
    (h : agentRun custom ws apps (initState d) os = some (s', tr)) :
    (s'.current_app = none ∨ ∃ a, s'.current_app = some a) ∧
    NoDoubleOpen tr := by
  have hinit : goodState custom (initState d) := by
    intro a ha
    simp [initState] at ha
  obtain ⟨hg, hscan⟩ :=
    agentRun_scan custom ws apps hpre os (initState d) hinit s' tr h
  constructor
  · cases hc : s'.current_app with
    | none => exact Or.inl rfl
    | some a => exact Or.inr ⟨a, rfl⟩
  · have hpd : pend (initState d) = false := rfl
    rw [hpd] at hscan
    rw [NoDoubleOpen, hscan]
    rfl

/-- Witness for C4: one off-hours iteration (midnight against the
09:00–18:00 schedule) from the fresh state, over the built-in catalog. -/
theorem at_most_one_open_witness :
    ((initState 300 : AgentState).current_app = none ∨
      ∃ a, (initState 300 : AgentState).current_app = some a) ∧
    NoDoubleOpen [Event.log .info .outsideWorkHours] :=
  at_most_one_open [] ⟨32400, 64800, [⟨46800, 60⟩]⟩ ["Slack"] 300
    [⟨0, 0, 0, 0, 0, 0, 300, fun _ => true⟩] builtin_open_imp_close
    (initState 300) [Event.log .info .outsideWorkHours] rfl

end LinuxAgent
